import Mathlib

/-
Verification development for the movie-theater CRUD service
(src/routes/movies.py and src/schemas/movies.py).

The service is embedded shallowly:

* the relational store becomes an explicit `Database` value that every
  operation threads through and returns;
* the four reference tables (countries, genres, actors, languages) are lists
  of `RefRow` (`id` is the surrogate key, `name` holds the natural key —
  for countries it holds the country `code`);
* each table carries its autoincrement counter (`next...Id` fields), which
  stands for the id that the ORM `flush` would assign to the next inserted row;
* dates are modelled as integers (a day count), so "365 days in the future"
  is `today + 365`; floats that are only compared against constants
  (`score`, `budget`, `revenue`) are modelled as rationals;
* a raised `HTTPException` becomes `Except.error` with an `ApiError` that
  remembers the status code class, and every operation returns the
  (possibly unchanged) database next to its result, mirroring the fact that
  an exception raised before any ORM write leaves the store untouched.
-/

/-- A row of one of the reference tables (Country / Genre / Actor / Language).
For countries the `name` field holds the natural key `code`. -/
structure RefRow where
  id : Nat
  name : String
deriving DecidableEq, Repr

/-- A persisted movie row together with its association links: `countryId`
is the many-to-one foreign key, `genres` / `actors` / `languages` are the
ids written through the many-to-many association lists in `create_movie`.
`overview` is nullable (the list schema exposes it as `Optional[str]`). -/
structure Movie where
  id : Nat
  name : String
  date : Int
  score : Rat
  overview : Option String
  status : String
  budget : Rat
  revenue : Rat
  countryId : Nat
  genres : List Nat
  actors : List Nat
  languages : List Nat
deriving DecidableEq, Repr

/-- The relational store: the movie table plus the four reference tables,
each with its autoincrement counter. -/
structure Database where
  movies : List Movie
  countries : List RefRow
  genres : List RefRow
  actors : List RefRow
  languages : List RefRow
  nextMovieId : Nat
  nextCountryId : Nat
  nextGenreId : Nat
  nextActorId : Nat
  nextLanguageId : Nat
deriving DecidableEq, Repr

/-- Error taxonomy of the routes: each constructor corresponds to one
`HTTPException` site (404 / 400 / 409); the conflict error carries the
message built in `create_movie`. -/
inductive ApiError where
  | notFound
  | validation
  | conflict (msg : String)
deriving DecidableEq, Repr

/-- Status code each error is raised with in src/routes/movies.py. -/
def statusCode : ApiError → Nat
  | ApiError.notFound => 404
  | ApiError.validation => 400
  | ApiError.conflict _ => 409

/-- Embedding of `get_or_create` (src/routes/movies.py lines 23-31): select
the first row whose natural-key field equals `key` exactly; if none exists,
insert a row with exactly that field, `flush` assigning it the next id. -/
def get_or_create (table : List RefRow) (nextId : Nat) (key : String) :
    RefRow × List RefRow × Nat :=
  match table.find? (fun r => r.name == key) with
  | some obj => (obj, table, nextId)
  | none => (⟨nextId, key⟩, table ++ [⟨nextId, key⟩], nextId + 1)

/-- Embedding of the list comprehensions in `create_movie`
(`[await get_or_create(db, Model, name=x) for x in xs]`): resolve each key
in order, threading the table state, and collect the resolved ids. -/
def resolveEach (table : List RefRow) (nextId : Nat) :
    List String → List Nat × List RefRow × Nat
  | [] => ([], table, nextId)
  | k :: ks =>
    let step := get_or_create table nextId k
    let rest := resolveEach step.2.1 step.2.2 ks
    (step.1.id :: rest.1, rest.2.1, rest.2.2)

/-- The validated payload of `MovieCreateSchema` (src/schemas/movies.py
lines 54-79). -/
structure MovieCreateSchema where
  name : String
  date : Int
  score : Rat
  overview : Option String
  status : String
  budget : Rat
  revenue : Rat
  country : String
  genres : List String
  actors : List String
  languages : List String
deriving DecidableEq, Repr

/-- The pydantic validation of `MovieCreateSchema`: `Field(max_length=255)`
on `name`, the `validate_score` range check and the `validate_money`
non-negativity checks. It runs at input-acceptance time: it takes no
database. -/
def movieCreateValid (d : MovieCreateSchema) : Bool :=
  decide (d.name.length ≤ 255) &&
  (decide ((0 : Rat) ≤ d.score) && decide (d.score ≤ 100)) &&
  decide ((0 : Rat) ≤ d.budget) &&
  decide ((0 : Rat) ≤ d.revenue)

/-- The conflict message of `create_movie` for a duplicate (name, date). -/
def conflictMsg (name : String) (d : Int) : String :=
  "A movie with the name " ++ name ++ " and release date " ++ toString d ++
    " already exists."

/-- Embedding of `create_movie` (src/routes/movies.py lines 79-141), run at
day `today`: reject a date more than 365 days in the future (400), reject a
duplicate (name, date) (409); only then resolve the country and the three
name lists through `get_or_create`, build the movie row, commit, and return
the freshly re-fetched row. Both error branches return the store unchanged:
the exception is raised before any resolver runs. -/
def create_movie (today : Int) (db : Database) (data : MovieCreateSchema) :
    Except ApiError Movie × Database :=
  if today + 365 < data.date then
    (Except.error ApiError.validation, db)
  else
    match db.movies.find? (fun m => m.name == data.name && m.date == data.date) with
    | some _ =>
      (Except.error (ApiError.conflict (conflictMsg data.name data.date)), db)
    | none =>
      let c := get_or_create db.countries db.nextCountryId data.country
      let g := resolveEach db.genres db.nextGenreId data.genres
      let a := resolveEach db.actors db.nextActorId data.actors
      let l := resolveEach db.languages db.nextLanguageId data.languages
      let movie : Movie :=
        { id := db.nextMovieId
          name := data.name
          date := data.date
          score := data.score
          overview := some (data.overview.getD "")
          status := data.status
          budget := data.budget
          revenue := data.revenue
          countryId := c.1.id
          genres := g.1
          actors := a.1
          languages := l.1 }
      (Except.ok movie,
        { movies := db.movies ++ [movie]
          countries := c.2.1
          genres := g.2.1
          actors := a.2.1
          languages := l.2.1
          nextMovieId := db.nextMovieId + 1
          nextCountryId := c.2.2
          nextGenreId := g.2.2
          nextActorId := a.2.2
          nextLanguageId := l.2.2 })

/-- The response of the list route (`MovieListResponseSchema`). -/
structure MovieListResponseSchema where
  movies : List Movie
  prev_page : Option String
  next_page : Option String
  total_pages : Nat
  total_items : Nat
deriving DecidableEq, Repr

/-- The fixed resource path the navigation links are built against. -/
def BASE_URL : String := "/theater/movies"

/-- A navigation link: page and page size as query parameters on `BASE_URL`. -/
def pageUrl (page per_page : Nat) : String :=
  BASE_URL ++ "/?page=" ++ toString page ++ "&per_page=" ++ toString per_page

/-- Ceiling division, the embedding of `ceil(total_items / per_page)`. -/
def ceilDiv (a b : Nat) : Nat := (a + b - 1) / b

/-- The ordering `order_by(MovieModel.id.desc())` used by the list route. -/
def movieIdGe (a b : Movie) : Prop := b.id ≤ a.id

instance : DecidableRel movieIdGe := fun a b => Nat.decLe b.id a.id

instance : IsTotal Movie movieIdGe := ⟨fun a b => Nat.le_total b.id a.id⟩

instance : IsTrans Movie movieIdGe := ⟨fun _ _ _ h₁ h₂ => Nat.le_trans h₂ h₁⟩

/-- The movie table sorted by id descending, as the list query returns it. -/
def sortByIdDesc (l : List Movie) : List Movie := List.insertionSort movieIdGe l

/-- Embedding of `get_movies` (src/routes/movies.py lines 34-71): count the
movies (404 when zero), compute total pages by ceiling division (404 when
the page is past the end), fetch the page ordered by id descending with
offset `(page - 1) * per_page` and limit `per_page`, and attach the
previous / next links exactly when they exist. -/
def get_movies (db : Database) (page per_page : Nat) :
    Except ApiError MovieListResponseSchema :=
  let total_items := db.movies.length
  if total_items = 0 then Except.error ApiError.notFound
  else
    let total_pages := ceilDiv total_items per_page
    if total_pages < page then Except.error ApiError.notFound
    else
      Except.ok
        { movies := ((sortByIdDesc db.movies).drop ((page - 1) * per_page)).take per_page
          prev_page := if 1 < page then some (pageUrl (page - 1) per_page) else none
          next_page := if page < total_pages then some (pageUrl (page + 1) per_page) else none
          total_pages := total_pages
          total_items := total_items }

/-- The sparse payload of `MovieUpdateSchema` (src/schemas/movies.py lines
99-120) after `model_dump(exclude_unset=True)`: an outer `none` means the
field was omitted from the request. All columns except `overview` are
required by the data model, so a present value is a plain value; `overview`
is the one nullable column, so its present value is itself an `Option`
(`some none` models an explicit `null` that clears the overview). -/
structure MovieUpdateSchema where
  name : Option String := none
  date : Option Int := none
  score : Option Rat := none
  overview : Option (Option String) := none
  status : Option String := none
  budget : Option Rat := none
  revenue : Option Rat := none
deriving DecidableEq, Repr

/-- The pydantic validation of `MovieUpdateSchema`: the same `max_length`,
score-range and money checks as on create, each applied only when the field
is present. No check at all mentions `date`. -/
def movieUpdateValid (u : MovieUpdateSchema) : Bool :=
  (match u.name with | some s => decide (s.length ≤ 255) | none => true) &&
  (match u.score with | some v => decide ((0 : Rat) ≤ v) && decide (v ≤ 100) | none => true) &&
  (match u.budget with | some v => decide ((0 : Rat) ≤ v) | none => true) &&
  (match u.revenue with | some v => decide ((0 : Rat) ≤ v) | none => true)

/-- The `setattr` loop of `update_movie`: overwrite exactly the fields
present in the dump, keep every other field. -/
def applyUpdate (m : Movie) (u : MovieUpdateSchema) : Movie :=
  { m with
    name := u.name.getD m.name
    date := u.date.getD m.date
    score := u.score.getD m.score
    overview := u.overview.getD m.overview
    status := u.status.getD m.status
    budget := u.budget.getD m.budget
    revenue := u.revenue.getD m.revenue }

/-- Embedding of `update_movie` (src/routes/movies.py lines 167-198): fetch
the movie by id (404 when absent), apply the present fields, commit, and
answer with a success marker only — not the entity. -/
def update_movie (db : Database) (movie_id : Nat) (data : MovieUpdateSchema) :
    Except ApiError String × Database :=
  match db.movies.find? (fun m => m.id == movie_id) with
  | none => (Except.error ApiError.notFound, db)
  | some _ =>
    (Except.ok "Movie updated successfully.",
      { db with
          movies := db.movies.map
            (fun m => if m.id == movie_id then applyUpdate m data else m) })

/-- Name lookup by surrogate id in a reference table. -/
def nameOf (table : List RefRow) (i : Nat) : Option String :=
  (table.find? (fun r => r.id == i)).map RefRow.name

/-- The natural-key names behind a list of association ids. -/
def relationNames (table : List RefRow) (ids : List Nat) : List String :=
  ids.filterMap (nameOf table)

/-- Modelled from the spec: the many-to-many association tables
(movie-genre, movie-actor, movie-language) live in database/models.py,
which is not under src/; per the spec the association is a set, not a
multiset, so a movie's association is the set of referenced ids and a
duplicate link collapses to a single row. -/
def assocIds (ids : List Nat) : Finset Nat := ids.toFinset

/-- Well-formedness of a reference table with respect to its autoincrement
counter: every id is below the counter, and both the surrogate ids and the
natural-key names are duplicate-free (the natural key is unique). -/
structure WFTable (t : List RefRow) (n : Nat) : Prop where
  fresh : ∀ r ∈ t, r.id < n
  idsNodup : (t.map RefRow.id).Nodup
  namesNodup : (t.map RefRow.name).Nodup

/-- Well-formedness of the four reference tables of a store. -/
structure WFDatabase (db : Database) : Prop where
  countries : WFTable db.countries db.nextCountryId
  genres : WFTable db.genres db.nextGenreId
  actors : WFTable db.actors db.nextActorId
  languages : WFTable db.languages db.nextLanguageId

/-- In a table with duplicate-free ids, the id lookup of a member finds
exactly that member. -/
theorem find?_id_of_mem {t : List RefRow} {r : RefRow}
    (hnd : (t.map RefRow.id).Nodup) (hm : r ∈ t) :
    t.find? (fun x => x.id == r.id) = some r := by
  induction t with
  | nil => cases hm
  | cons x xs ih =>
    simp only [List.map_cons, List.nodup_cons] at hnd
    rcases List.mem_cons.mp hm with rfl | hmem
    · simp [List.find?_cons]
    · have hxne : x.id ≠ r.id := by
        intro he
        exact hnd.1 (he ▸ List.mem_map_of_mem RefRow.id hmem)
      have hb : (x.id == r.id) = false := by simp [hxne]
      rw [List.find?_cons, hb]
      exact ih hnd.2 hmem

/-- Appending rows whose ids are at least `n` does not change the name
lookup of an id below `n`. -/
theorem nameOf_append_of_lt {t₁ t₂ : List RefRow} {n i : Nat}
    (h₂ : ∀ r ∈ t₂, n ≤ r.id) (hi : i < n) :
    nameOf (t₁ ++ t₂) i = nameOf t₁ i := by
  unfold nameOf
  rw [List.find?_append]
  have hnone : t₂.find? (fun r => r.id == i) = none := by
    rw [List.find?_eq_none]
    intro r hr
    simp only [beq_iff_eq]
    intro he
    have := h₂ r hr
    omega
  rw [hnone, Option.or_none]

/-- The row returned by `get_or_create` carries exactly the requested key. -/
theorem get_or_create_name (t : List RefRow) (n : Nat) (k : String) :
    (get_or_create t n k).1.name = k := by
  rcases h : t.find? (fun r => r.name == k) with _ | r
  · simp [get_or_create, h]
  · simp only [get_or_create, h]
    simpa using List.find?_some h

/-- The row returned by `get_or_create` is a member of the updated table. -/
theorem get_or_create_mem (t : List RefRow) (n : Nat) (k : String) :
    (get_or_create t n k).1 ∈ (get_or_create t n k).2.1 := by
  rcases h : t.find? (fun r => r.name == k) with _ | r
  · simp [get_or_create, h]
  · simp only [get_or_create, h]
    exact List.mem_of_find?_eq_some h

/-- The counter never decreases across `get_or_create`. -/
theorem get_or_create_le (t : List RefRow) (n : Nat) (k : String) :
    n ≤ (get_or_create t n k).2.2 := by
  rcases h : t.find? (fun r => r.name == k) with _ | r <;>
    simp [get_or_create, h]

/-- The id of the returned row is below the updated counter. -/
theorem get_or_create_id_lt {t : List RefRow} {n : Nat} (k : String)
    (hw : WFTable t n) :
    (get_or_create t n k).1.id < (get_or_create t n k).2.2 := by
  rcases h : t.find? (fun r => r.name == k) with _ | r
  · simp [get_or_create, h]
  · simp only [get_or_create, h]
    exact hw.fresh r (List.mem_of_find?_eq_some h)

/-- The updated table extends the old one by rows with ids at least `n`. -/
theorem get_or_create_ext (t : List RefRow) (n : Nat) (k : String) :
    ∃ t₂, (get_or_create t n k).2.1 = t ++ t₂ ∧ ∀ r ∈ t₂, n ≤ r.id := by
  rcases h : t.find? (fun r => r.name == k) with _ | r
  · exact ⟨[⟨n, k⟩], by simp [get_or_create, h], by simp⟩
  · exact ⟨[], by simp [get_or_create, h], by simp⟩

/-- Well-formedness is preserved by `get_or_create`. -/
theorem get_or_create_wf {t : List RefRow} {n : Nat} (k : String)
    (hw : WFTable t n) :
    WFTable (get_or_create t n k).2.1 (get_or_create t n k).2.2 := by
  rcases h : t.find? (fun r => r.name == k) with _ | r
  · simp only [get_or_create, h]
    refine ⟨?_, ?_, ?_⟩
    · intro r hr
      rcases List.mem_append.mp hr with hr | hr
      · exact Nat.lt_succ_of_lt (hw.fresh r hr)
      · simp at hr
        subst hr
        exact Nat.lt_succ_self n
    · rw [List.map_append, List.nodup_append]
      refine ⟨hw.idsNodup, by simp, ?_⟩
      intro i hi
      simp only [List.map_cons, List.map_nil, List.mem_singleton]
      rcases List.mem_map.mp hi with ⟨r, hr, rfl⟩
      exact Nat.ne_of_lt (hw.fresh r hr)
    · rw [List.map_append, List.nodup_append]
      refine ⟨hw.namesNodup, by simp, ?_⟩
      intro s hs
      simp only [List.map_cons, List.map_nil, List.mem_singleton]
      rcases List.mem_map.mp hs with ⟨r, hr, rfl⟩
      intro he
      have := List.find?_eq_none.mp h r hr
      simp [he] at this
  · simp only [get_or_create, h]
    exact hw

/-- Unfolding equation of `resolveEach` on the empty list. -/
theorem resolveEach_nil (t : List RefRow) (n : Nat) :
    resolveEach t n [] = ([], t, n) := rfl

/-- Unfolding equation of `resolveEach` on a cons. -/
theorem resolveEach_cons (t : List RefRow) (n : Nat) (k : String) (ks : List String) :
    resolveEach t n (k :: ks) =
      ((get_or_create t n k).1.id ::
        (resolveEach (get_or_create t n k).2.1 (get_or_create t n k).2.2 ks).1,
       (resolveEach (get_or_create t n k).2.1 (get_or_create t n k).2.2 ks).2.1,
       (resolveEach (get_or_create t n k).2.1 (get_or_create t n k).2.2 ks).2.2) := rfl

/-- Invariant of the resolution loop: looking the resolved ids back up in
the final table recovers exactly the input keys, the ids stay below the
final counter, the counter grows, well-formedness is preserved, and the
final table extends the initial one by fresh rows only. -/
theorem resolveEach_spec (ks : List String) (t : List RefRow) (n : Nat)
    (hw : WFTable t n) :
    (resolveEach t n ks).1.map (nameOf (resolveEach t n ks).2.1) = ks.map some ∧
    (∀ i ∈ (resolveEach t n ks).1, i < (resolveEach t n ks).2.2) ∧
    n ≤ (resolveEach t n ks).2.2 ∧
    WFTable (resolveEach t n ks).2.1 (resolveEach t n ks).2.2 ∧
    ∃ t₂, (resolveEach t n ks).2.1 = t ++ t₂ ∧ ∀ r ∈ t₂, n ≤ r.id := by
  induction ks generalizing t n with
  | nil =>
    exact ⟨rfl, by simp [resolveEach_nil], le_refl n, hw, [], by simp [resolveEach_nil], by simp⟩
  | cons k ks ih =>
    have hw₁ := get_or_create_wf k hw
    obtain ⟨hmap, hlt, hle, hw₂, text, hext, hid⟩ :=
      ih (get_or_create t n k).2.1 (get_or_create t n k).2.2 hw₁
    simp only [resolveEach_cons]
    refine ⟨?_, ?_, ?_, hw₂, ?_⟩
    · have hhead :
          nameOf (resolveEach (get_or_create t n k).2.1 (get_or_create t n k).2.2 ks).2.1
            (get_or_create t n k).1.id = some k := by
        rw [hext, nameOf_append_of_lt hid (get_or_create_id_lt k hw)]
        unfold nameOf
        rw [find?_id_of_mem hw₁.idsNodup (get_or_create_mem t n k)]
        simp [get_or_create_name]
      rw [List.map_cons, List.map_cons, hhead, hmap]
    · intro i hi
      rcases List.mem_cons.mp hi with rfl | hi
      · exact Nat.lt_of_lt_of_le (get_or_create_id_lt k hw) hle
      · exact hlt i hi
    · exact Nat.le_trans (get_or_create_le t n k) hle
    · obtain ⟨e₀, he₀, hid₀⟩ := get_or_create_ext t n k
      refine ⟨e₀ ++ text, ?_, ?_⟩
      · rw [hext, he₀, List.append_assoc]
      · intro r hr
        rcases List.mem_append.mp hr with hr | hr
        · exact hid₀ r hr
        · exact Nat.le_trans (get_or_create_le t n k) (hid r hr)

/-- When mapping `f` over a list yields `some` of every element of `ks`,
filtering the map recovers `ks` itself. -/
theorem filterMap_of_map_some {α β : Type} {f : α → Option β} :
    ∀ {ids : List α} {ks : List β}, ids.map f = ks.map some → ids.filterMap f = ks := by
  intro ids
  induction ids with
  | nil =>
    intro ks h
    cases ks with
    | nil => rfl
    | cons k ks => simp at h
  | cons i is ih =>
    intro ks h
    cases ks with
    | nil => simp at h
    | cons k ks =>
      simp only [List.map_cons, List.cons.injEq] at h
      simp [List.filterMap_cons, h.1, ih h.2]

/-- An id list whose name lookups are exactly `some` of the keys points
at one row per distinct key: the set of links is as large as the set of
deduplicated keys. -/
theorem assocIds_card_of_map_some {T : List RefRow} {N : Nat} {ids : List Nat}
    {ks : List String} (hw : WFTable T N) (h : ids.map (nameOf T) = ks.map some) :
    (assocIds ids).card = ks.toFinset.card := by
  have hsome : ∀ i ∈ ids, ∃ s, nameOf T i = some s := by
    intro i hi
    have : nameOf T i ∈ ids.map (nameOf T) := List.mem_map_of_mem _ hi
    rw [h] at this
    rcases List.mem_map.mp this with ⟨s, _, hs⟩
    exact ⟨s, hs.symm⟩
  have hrow : ∀ i ∈ ids, ∃ r ∈ T, r.id = i ∧ nameOf T i = some r.name := by
    intro i hi
    obtain ⟨s, hs⟩ := hsome i hi
    obtain ⟨r, hr, hrs⟩ := Option.map_eq_some'.mp hs
    refine ⟨r, List.mem_of_find?_eq_some hr, ?_, ?_⟩
    · simpa using List.find?_some hr
    · rw [hs, hrs]
  have hg : ids.map (fun i => (nameOf T i).getD "") = ks := by
    have h₁ : ids.map (fun i => (nameOf T i).getD "") =
        (ids.map (nameOf T)).map (fun o => o.getD "") := by
      rw [List.map_map]
      rfl
    rw [h₁, h, List.map_map]
    have h₂ : ((fun o : Option String => o.getD "") ∘ some) = id := by
      funext s
      rfl
    rw [h₂, List.map_id]
  have hmapfin : ∀ (l : List Nat) (f : Nat → String),
      (l.map f).toFinset = l.toFinset.image f := by
    intro l f
    ext b
    simp [List.mem_toFinset, List.mem_map]
  have himg : ks.toFinset = ids.toFinset.image (fun i => (nameOf T i).getD "") := by
    rw [← hg, hmapfin]
  rw [himg, assocIds]
  refine (Finset.card_image_of_injOn ?_).symm
  intro i hi j hj hgij
  have hi' : i ∈ ids := List.mem_toFinset.mp hi
  have hj' : j ∈ ids := List.mem_toFinset.mp hj
  obtain ⟨ri, hri, hriid, hrin⟩ := hrow i hi'
  obtain ⟨rj, hrj, hrjid, hrjn⟩ := hrow j hj'
  have hnames : ri.name = rj.name := by
    have hgij₂ : (nameOf T i).getD "" = (nameOf T j).getD "" := hgij
    rw [hrin, hrjn] at hgij₂
    simpa using hgij₂
  have : ri = rj :=
    List.inj_on_of_nodup_map hw.namesNodup hri hrj hnames
  rw [← hriid, ← hrjid, this]

/-- Inversion of a successful create: the checks passed, and the stored
movie and tables are exactly the resolver outputs. -/
theorem create_movie_ok_inv {today : Int} {db : Database} {d : MovieCreateSchema}
    {m : Movie} {db₂ : Database}
    (h : create_movie today db d = (Except.ok m, db₂)) :
    ¬ today + 365 < d.date ∧
    db.movies.find? (fun mv => mv.name == d.name && mv.date == d.date) = none ∧
    m.genres = (resolveEach db.genres db.nextGenreId d.genres).1 ∧
    db₂.genres = (resolveEach db.genres db.nextGenreId d.genres).2.1 ∧
    m.actors = (resolveEach db.actors db.nextActorId d.actors).1 ∧
    db₂.actors = (resolveEach db.actors db.nextActorId d.actors).2.1 ∧
    m.languages = (resolveEach db.languages db.nextLanguageId d.languages).1 ∧
    db₂.languages = (resolveEach db.languages db.nextLanguageId d.languages).2.1 := by
  unfold create_movie at h
  by_cases hd : today + 365 < d.date
  · rw [if_pos hd] at h
    simp at h
  · rw [if_neg hd] at h
    rcases hf : db.movies.find? (fun mv => mv.name == d.name && mv.date == d.date) with _ | w
    · rw [hf] at h
      simp only [Prod.mk.injEq, Except.ok.injEq] at h
      obtain ⟨hm, hdb⟩ := h
      subst hm
      subst hdb
      exact ⟨hd, hf, rfl, rfl, rfl, rfl, rfl, rfl⟩
    · rw [hf] at h
      simp at h

/-- When both checks pass, create succeeds. -/
theorem create_movie_ok_of_checks {today : Int} {db : Database} {d : MovieCreateSchema}
    (hd : ¬ today + 365 < d.date)
    (hf : db.movies.find? (fun mv => mv.name == d.name && mv.date == d.date) = none) :
    ∃ m db₂, create_movie today db d = (Except.ok m, db₂) := by
  rcases he : create_movie today db d with ⟨res, db₂⟩
  rcases res with e | m
  · exfalso
    unfold create_movie at he
    rw [if_neg hd, hf] at he
    simp at he
  · exact ⟨m, db₂, rfl⟩

/-- On any successful create, the names behind the stored association ids
are exactly the input name lists, and the link sets have one link per
distinct input name. -/
theorem create_relation_facts {today : Int} {db : Database} {d : MovieCreateSchema}
    {m : Movie} {db₂ : Database} (hw : WFDatabase db)
    (h : create_movie today db d = (Except.ok m, db₂)) :
    relationNames db₂.genres m.genres = d.genres ∧
    (assocIds m.genres).card = d.genres.toFinset.card ∧
    relationNames db₂.actors m.actors = d.actors ∧
    (assocIds m.actors).card = d.actors.toFinset.card ∧
    relationNames db₂.languages m.languages = d.languages ∧
    (assocIds m.languages).card = d.languages.toFinset.card := by
  obtain ⟨hd, hf, hg1, hg2, ha1, ha2, hl1, hl2⟩ := create_movie_ok_inv h
  obtain ⟨hmapg, _, _, hwg, _⟩ :=
    resolveEach_spec d.genres db.genres db.nextGenreId hw.genres
  obtain ⟨hmapa, _, _, hwa, _⟩ :=
    resolveEach_spec d.actors db.actors db.nextActorId hw.actors
  obtain ⟨hmapl, _, _, hwl, _⟩ :=
    resolveEach_spec d.languages db.languages db.nextLanguageId hw.languages
  refine ⟨?_, ?_, ?_, ?_, ?_, ?_⟩
  · rw [hg1, hg2]
    exact filterMap_of_map_some hmapg
  · rw [hg1]
    exact assocIds_card_of_map_some hwg hmapg
  · rw [ha1, ha2]
    exact filterMap_of_map_some hmapa
  · rw [ha1]
    exact assocIds_card_of_map_some hwa hmapa
  · rw [hl1, hl2]
    exact filterMap_of_map_some hmapl
  · rw [hl1]
    exact assocIds_card_of_map_some hwl hmapl

/-- Claim C1: for every valid create over a well-formed store, the returned
movie's genre, actor and language relations are exactly the set of
deduplicated input names (one link per distinct name), and permuting the
input lists yields the same relation sets. -/
theorem create_relations_eq_dedup_input (today : Int) (db : Database)
    (d : MovieCreateSchema) (m : Movie) (db₂ : Database) (hw : WFDatabase db)
    (h : create_movie today db d = (Except.ok m, db₂)) :
    (relationNames db₂.genres m.genres).toFinset = d.genres.toFinset ∧
    (relationNames db₂.actors m.actors).toFinset = d.actors.toFinset ∧
    (relationNames db₂.languages m.languages).toFinset = d.languages.toFinset ∧
    (assocIds m.genres).card = d.genres.toFinset.card ∧
    (assocIds m.actors).card = d.actors.toFinset.card ∧
    (assocIds m.languages).card = d.languages.toFinset.card ∧
    (∀ gs acts ls,
      gs.Perm d.genres → acts.Perm d.actors → ls.Perm d.languages →
      ∃ m₂ db₃,
        create_movie today db
            { d with genres := gs, actors := acts, languages := ls } =
          (Except.ok m₂, db₃) ∧
        (relationNames db₃.genres m₂.genres).toFinset =
          (relationNames db₂.genres m.genres).toFinset ∧
        (relationNames db₃.actors m₂.actors).toFinset =
          (relationNames db₂.actors m.actors).toFinset ∧
        (relationNames db₃.languages m₂.languages).toFinset =
          (relationNames db₂.languages m.languages).toFinset) := by
  obtain ⟨e1, c1, e2, c2, e3, c3⟩ := create_relation_facts hw h
  obtain ⟨hd, hf, _⟩ := create_movie_ok_inv h
  refine ⟨by rw [e1], by rw [e2], by rw [e3], c1, c2, c3, ?_⟩
  intro gs acts ls hpg hpa hpl
  have hd₂ : ¬ today + 365 <
      ({ d with genres := gs, actors := acts, languages := ls } :
        MovieCreateSchema).date := hd
  have hf₂ : db.movies.find?
      (fun mv =>
        mv.name == ({ d with genres := gs, actors := acts, languages := ls } :
          MovieCreateSchema).name &&
        mv.date == ({ d with genres := gs, actors := acts, languages := ls } :
          MovieCreateSchema).date) = none := hf
  obtain ⟨m₂, db₃, h₂⟩ := create_movie_ok_of_checks hd₂ hf₂
  obtain ⟨f1, _, f2, _, f3, _⟩ := create_relation_facts hw h₂
  have f1g : relationNames db₃.genres m₂.genres = gs := f1
  have f2a : relationNames db₃.actors m₂.actors = acts := f2
  have f3l : relationNames db₃.languages m₂.languages = ls := f3
  refine ⟨m₂, db₃, h₂, ?_, ?_, ?_⟩
  · rw [f1g, e1]
    exact List.toFinset_eq_of_perm _ _ hpg
  · rw [f2a, e2]
    exact List.toFinset_eq_of_perm _ _ hpa
  · rw [f3l, e3]
    exact List.toFinset_eq_of_perm _ _ hpl

/-- An empty store whose autoincrement counters start at 1. -/
def dbEmpty : Database :=
  { movies := [], countries := [], genres := [], actors := [], languages := [],
    nextMovieId := 1, nextCountryId := 1, nextGenreId := 1, nextActorId := 1,
    nextLanguageId := 1 }

/-- A sample create payload with duplicated genre and language names. -/
def sampleCreate : MovieCreateSchema :=
  { name := "Inception", date := 100, score := 86, overview := some "Dream heist.",
    status := "Released", budget := 160, revenue := 825, country := "US",
    genres := ["Action", "Drama", "Action"], actors := ["Leo"],
    languages := ["English", "English"] }

/-- The movie row the sample create stores. -/
def sampleMovie : Movie :=
  { id := 1, name := "Inception", date := 100, score := 86,
    overview := some "Dream heist.", status := "Released", budget := 160,
    revenue := 825, countryId := 1, genres := [1, 2, 1], actors := [1],
    languages := [1, 1] }

/-- The store after the sample create. -/
def sampleDb2 : Database :=
  { movies := [sampleMovie],
    countries := [⟨1, "US"⟩],
    genres := [⟨1, "Action"⟩, ⟨2, "Drama"⟩],
    actors := [⟨1, "Leo"⟩],
    languages := [⟨1, "English"⟩],
    nextMovieId := 2, nextCountryId := 2, nextGenreId := 3, nextActorId := 2,
    nextLanguageId := 2 }

/-- Witness for claim C1 at a concrete input with duplicated names. -/
theorem create_relations_eq_dedup_input_witness :
    create_movie 0 dbEmpty sampleCreate = (Except.ok sampleMovie, sampleDb2) ∧
    (relationNames sampleDb2.genres sampleMovie.genres).toFinset =
      sampleCreate.genres.toFinset ∧
    (assocIds sampleMovie.genres).card = sampleCreate.genres.toFinset.card := by
  have hw : WFDatabase dbEmpty :=
    ⟨⟨by decide, by decide, by decide⟩, ⟨by decide, by decide, by decide⟩,
     ⟨by decide, by decide, by decide⟩, ⟨by decide, by decide, by decide⟩⟩
  have h : create_movie 0 dbEmpty sampleCreate = (Except.ok sampleMovie, sampleDb2) := by
    rfl
  obtain ⟨e1, e2, e3, c1, c2, c3, hperm⟩ :=
    create_relations_eq_dedup_input 0 dbEmpty sampleCreate sampleMovie sampleDb2 hw h
  exact ⟨h, e1, c1⟩

/-- In a table with a unique natural key, filtering by the key of a found
row yields exactly that row. -/
theorem filter_name_of_find?_some {t : List RefRow} {k : String} {r : RefRow}
    (hnd : (t.map RefRow.name).Nodup)
    (h : t.find? (fun x => x.name == k) = some r) :
    t.filter (fun x => x.name == k) = [r] := by
  induction t with
  | nil => simp at h
  | cons x xs ih =>
    simp only [List.map_cons, List.nodup_cons] at hnd
    by_cases hx : x.name = k
    · have hb : (x.name == k) = true := by simp [hx]
      rw [List.find?_cons, hb] at h
      simp only [Option.some.injEq] at h
      subst h
      have hxs : xs.filter (fun y => y.name == k) = [] := by
        rw [List.filter_eq_nil_iff]
        intro y hy
        simp only [beq_iff_eq]
        intro he
        exact hnd.1 ((hx.trans he.symm) ▸ List.mem_map_of_mem RefRow.name hy)
      simp [List.filter_cons, hb, hxs]
    · have hb : (x.name == k) = false := by simp [hx]
      rw [List.find?_cons, hb] at h
      simp only [List.filter_cons, hb]
      simp only [Bool.false_eq_true, if_false]
      exact ih hnd.2 h

/-- Claim C2: `get_or_create` returns the row matching the natural key
unchanged when one exists; otherwise it inserts a row carrying exactly the
key and the next id; the insertion is visible to an immediate second
resolve of the same key, which returns the very same row without touching
the table; and afterwards exactly one row carries the key. -/
theorem get_or_create_upsert (t : List RefRow) (n : Nat) (k : String)
    (hw : WFTable t n) :
    (∀ r, t.find? (fun x => x.name == k) = some r →
      get_or_create t n k = (r, t, n)) ∧
    (t.find? (fun x => x.name == k) = none →
      get_or_create t n k = (⟨n, k⟩, t ++ [⟨n, k⟩], n + 1)) ∧
    get_or_create (get_or_create t n k).2.1 (get_or_create t n k).2.2 k =
      ((get_or_create t n k).1, (get_or_create t n k).2.1,
        (get_or_create t n k).2.2) ∧
    (get_or_create t n k).2.1.filter (fun x => x.name == k) =
      [(get_or_create t n k).1] := by
  rcases h : t.find? (fun x => x.name == k) with _ | r
  · have hf : (t ++ [(⟨n, k⟩ : RefRow)]).find? (fun x => x.name == k) =
        some (⟨n, k⟩ : RefRow) := by
      rw [List.find?_append, h]
      simp
    refine ⟨?_, ?_, ?_, ?_⟩
    · intro r hr
      rw [h] at hr
      cases hr
    · intro _
      simp [get_or_create, h]
    · simp only [get_or_create, h, hf]
    · simp only [get_or_create, h]
      rw [List.filter_append]
      have hnil : t.filter (fun x => x.name == k) = [] := by
        rw [List.filter_eq_nil_iff]
        exact List.find?_eq_none.mp h
      rw [hnil]
      simp
  · refine ⟨?_, ?_, ?_, ?_⟩
    · intro r' hr'
      rw [h] at hr'
      simp only [Option.some.injEq] at hr'
      subst hr'
      simp [get_or_create, h]
    · intro hnone
      rw [h] at hnone
      cases hnone
    · simp only [get_or_create, h]
    · simp only [get_or_create, h]
      exact filter_name_of_find?_some hw.namesNodup h

/-- Witness for claim C2 at a concrete one-row table. -/
theorem get_or_create_upsert_witness :
    WFTable [(⟨1, "Drama"⟩ : RefRow)] 2 ∧
    (get_or_create [(⟨1, "Drama"⟩ : RefRow)] 2 "Drama").2.1.filter
        (fun x => x.name == "Drama") =
      [(get_or_create [(⟨1, "Drama"⟩ : RefRow)] 2 "Drama").1] := by
  have hw : WFTable [(⟨1, "Drama"⟩ : RefRow)] 2 :=
    ⟨by decide, by decide, by decide⟩
  exact ⟨hw, (get_or_create_upsert _ _ _ hw).2.2.2⟩

/-- Claim C3: the future-date and uniqueness checks run before any
reference-entity resolution, so a create that fails with the validation or
conflict error leaves every reference table — indeed the whole store —
unchanged, and those are the only two create errors. -/
theorem create_error_state_unchanged (today : Int) (db : Database)
    (d : MovieCreateSchema) (e : ApiError)
    (h : (create_movie today db d).1 = Except.error e) :
    (e = ApiError.validation ∨ e = ApiError.conflict (conflictMsg d.name d.date)) ∧
    (create_movie today db d).2.countries = db.countries ∧
    (create_movie today db d).2.genres = db.genres ∧
    (create_movie today db d).2.actors = db.actors ∧
    (create_movie today db d).2.languages = db.languages ∧
    (create_movie today db d).2 = db := by
  by_cases hd : today + 365 < d.date
  · have hc : create_movie today db d = (Except.error ApiError.validation, db) := by
      unfold create_movie
      rw [if_pos hd]
    have he : ApiError.validation = e := by
      rw [hc] at h
      simpa using h
    subst he
    exact ⟨Or.inl rfl, by rw [hc], by rw [hc], by rw [hc], by rw [hc], by rw [hc]⟩
  · rcases hf : db.movies.find? (fun mv => mv.name == d.name && mv.date == d.date) with _ | w
    · obtain ⟨m, db₂, hc⟩ := create_movie_ok_of_checks hd hf
      rw [hc] at h
      simp at h
    · have hc : create_movie today db d =
          (Except.error (ApiError.conflict (conflictMsg d.name d.date)), db) := by
        unfold create_movie
        rw [if_neg hd, hf]
      have he : ApiError.conflict (conflictMsg d.name d.date) = e := by
        rw [hc] at h
        simpa using h
      subst he
      exact ⟨Or.inr rfl, by rw [hc], by rw [hc], by rw [hc], by rw [hc], by rw [hc]⟩

/-- A create payload dated 400 days after day 0. -/
def farFutureCreate : MovieCreateSchema := { sampleCreate with date := 400 }

/-- Witness for claim C3: a failing create at day 0 with date 400 leaves
the empty store untouched. -/
theorem create_error_state_unchanged_witness :
    (create_movie 0 dbEmpty farFutureCreate).1 = Except.error ApiError.validation ∧
    (create_movie 0 dbEmpty farFutureCreate).2 = dbEmpty := by
  have h : (create_movie 0 dbEmpty farFutureCreate).1 =
      Except.error ApiError.validation := by rfl
  exact ⟨h,
    (create_error_state_unchanged 0 dbEmpty farFutureCreate ApiError.validation h).2.2.2.2.2⟩

/-- Claim C8: create fails with the 400 validation error exactly when the
release date is more than 365 days after today; any date up to and
including day `today + 365` passes this check. -/
theorem create_future_date_rule (today : Int) (db : Database)
    (d : MovieCreateSchema) :
    ((create_movie today db d).1 = Except.error ApiError.validation ↔
      today + 365 < d.date) ∧
    statusCode ApiError.validation = 400 := by
  refine ⟨⟨?_, ?_⟩, rfl⟩
  · intro h
    by_contra hd
    rcases hf : db.movies.find? (fun mv => mv.name == d.name && mv.date == d.date) with _ | w
    · obtain ⟨m, db₂, hc⟩ := create_movie_ok_of_checks hd hf
      rw [hc] at h
      simp at h
    · have hc : create_movie today db d =
          (Except.error (ApiError.conflict (conflictMsg d.name d.date)), db) := by
        unfold create_movie
        rw [if_neg hd, hf]
      rw [hc] at h
      simp at h
  · intro hd
    have hc : create_movie today db d = (Except.error ApiError.validation, db) := by
      unfold create_movie
      rw [if_pos hd]
    rw [hc]

/-- Claim C4: when the date check passes, create fails with the 409
conflict error — whose message names the colliding name and date — exactly
when some stored movie already has the same (name, date) pair, regardless
of every other field; when the pair is new, the create succeeds. -/
theorem create_conflict_rule (today : Int) (db : Database)
    (d : MovieCreateSchema) (hdate : ¬ today + 365 < d.date) :
    ((∃ mv ∈ db.movies, mv.name = d.name ∧ mv.date = d.date) →
      (create_movie today db d).1 =
        Except.error (ApiError.conflict (conflictMsg d.name d.date)) ∧
      statusCode (ApiError.conflict (conflictMsg d.name d.date)) = 409 ∧
      ∃ s₁ s₂ s₃, conflictMsg d.name d.date =
        s₁ ++ d.name ++ s₂ ++ toString d.date ++ s₃) ∧
    ((∀ mv ∈ db.movies, ¬(mv.name = d.name ∧ mv.date = d.date)) →
      ∃ m₂ db₂, create_movie today db d = (Except.ok m₂, db₂)) := by
  constructor
  · intro hex
    rcases hf2 : db.movies.find? (fun mv => mv.name == d.name && mv.date == d.date) with _ | w
    · exfalso
      obtain ⟨mv, hmv, h1, h2⟩ := hex
      have := List.find?_eq_none.mp hf2 mv hmv
      simp [h1, h2] at this
    · have hc : create_movie today db d =
          (Except.error (ApiError.conflict (conflictMsg d.name d.date)), db) := by
        unfold create_movie
        rw [if_neg hdate, hf2]
      rw [hc]
      exact ⟨rfl, rfl,
        ⟨"A movie with the name ", " and release date ", " already exists.", rfl⟩⟩
  · intro hall
    have hf : db.movies.find? (fun mv => mv.name == d.name && mv.date == d.date) = none := by
      rw [List.find?_eq_none]
      intro mv hmv
      simp only [Bool.and_eq_true, beq_iff_eq]
      intro hb
      exact hall mv hmv ⟨hb.1, hb.2⟩
    exact create_movie_ok_of_checks hdate hf

/-- Witness for claim C4: re-creating the sample movie on the store that
already holds it yields the conflict error. -/
theorem create_conflict_rule_witness :
    ¬ (0 : Int) + 365 < sampleCreate.date ∧
    (create_movie 0 sampleDb2 sampleCreate).1 =
      Except.error (ApiError.conflict (conflictMsg sampleCreate.name sampleCreate.date)) := by
  have hdate : ¬ (0 : Int) + 365 < sampleCreate.date := by decide
  have hex : ∃ mv ∈ sampleDb2.movies,
      mv.name = sampleCreate.name ∧ mv.date = sampleCreate.date :=
    ⟨sampleMovie, by decide, by decide, by decide⟩
  exact ⟨hdate, ((create_conflict_rule 0 sampleDb2 sampleCreate hdate).1 hex).1⟩

/-- A minimal movie row with a given id. -/
def mkMovie (i : Nat) : Movie :=
  { id := i, name := "M", date := 0, score := 0, overview := none,
    status := "Released", budget := 0, revenue := 0, countryId := 1,
    genres := [], actors := [], languages := [] }

/-- A store holding three movies with ids 1, 2, 3. -/
def dbThree : Database :=
  { movies := [mkMovie 1, mkMovie 2, mkMovie 3],
    countries := [⟨1, "US"⟩], genres := [], actors := [], languages := [],
    nextMovieId := 4, nextCountryId := 2, nextGenreId := 1, nextActorId := 1,
    nextLanguageId := 1 }

/-- Claim C5: on a non-empty store and a page within range, the list
operation returns the movies sorted by id descending — the slice skipping
`(page-1)*per_page` rows and taking `per_page` rows of a permutation of the
store — with the total page and item counts, a previous-page link exactly
when `page > 1` and a next-page link exactly when `page` is before the last
page, both links carrying page and page size as query parameters on the
fixed resource path. -/
theorem get_movies_pagination (db : Database) (page per_page : Nat)
    (hne : db.movies.length ≠ 0) (hp : 1 ≤ page) (hpp : 1 ≤ per_page)
    (hpl : page ≤ ceilDiv db.movies.length per_page) :
    ∃ resp, get_movies db page per_page = Except.ok resp ∧
      resp.movies =
        ((sortByIdDesc db.movies).drop ((page - 1) * per_page)).take per_page ∧
      (sortByIdDesc db.movies).Perm db.movies ∧
      resp.movies.Pairwise movieIdGe ∧
      resp.total_items = db.movies.length ∧
      resp.total_pages = ceilDiv db.movies.length per_page ∧
      resp.prev_page =
        (if 1 < page then some (pageUrl (page - 1) per_page) else none) ∧
      resp.next_page =
        (if page < ceilDiv db.movies.length per_page then
          some (pageUrl (page + 1) per_page) else none) ∧
      pageUrl (page - 1) per_page =
        BASE_URL ++ "/?page=" ++ toString (page - 1) ++ "&per_page=" ++
          toString per_page ∧
      pageUrl (page + 1) per_page =
        BASE_URL ++ "/?page=" ++ toString (page + 1) ++ "&per_page=" ++
          toString per_page := by
  have hnp : ¬ ceilDiv db.movies.length per_page < page := not_lt.mpr hpl
  have hc : get_movies db page per_page = Except.ok
      { movies :=
          ((sortByIdDesc db.movies).drop ((page - 1) * per_page)).take per_page
        prev_page := if 1 < page then some (pageUrl (page - 1) per_page) else none
        next_page := if page < ceilDiv db.movies.length per_page then
          some (pageUrl (page + 1) per_page) else none
        total_pages := ceilDiv db.movies.length per_page
        total_items := db.movies.length } := by
    simp only [get_movies]
    rw [if_neg hne, if_neg hnp]
  have hsorted : (sortByIdDesc db.movies).Pairwise movieIdGe :=
    List.sorted_insertionSort movieIdGe db.movies
  have hsub :
      (((sortByIdDesc db.movies).drop ((page - 1) * per_page)).take per_page).Sublist
        (sortByIdDesc db.movies) :=
    (List.take_sublist _ _).trans (List.drop_sublist _ _)
  exact ⟨_, hc, rfl, List.perm_insertionSort movieIdGe db.movies,
    List.Pairwise.sublist hsub hsorted, rfl, rfl, rfl, rfl, rfl, rfl⟩

/-- Witness for claim C5: page 2 of size 2 over the three-movie store. -/
theorem get_movies_pagination_witness :
    dbThree.movies.length ≠ 0 ∧ 1 ≤ 2 ∧ 2 ≤ ceilDiv dbThree.movies.length 2 ∧
    ∃ resp, get_movies dbThree 2 2 = Except.ok resp ∧
      resp.movies = ((sortByIdDesc dbThree.movies).drop ((2 - 1) * 2)).take 2 ∧
      (sortByIdDesc dbThree.movies).Perm dbThree.movies ∧
      resp.movies.Pairwise movieIdGe ∧
      resp.total_items = dbThree.movies.length ∧
      resp.total_pages = ceilDiv dbThree.movies.length 2 ∧
      resp.prev_page = (if 1 < 2 then some (pageUrl (2 - 1) 2) else none) ∧
      resp.next_page =
        (if 2 < ceilDiv dbThree.movies.length 2 then some (pageUrl (2 + 1) 2)
          else none) ∧
      pageUrl (2 - 1) 2 =
        BASE_URL ++ "/?page=" ++ toString (2 - 1) ++ "&per_page=" ++ toString 2 ∧
      pageUrl (2 + 1) 2 =
        BASE_URL ++ "/?page=" ++ toString (2 + 1) ++ "&per_page=" ++ toString 2 :=
  ⟨by decide, by decide, by decide,
    get_movies_pagination dbThree 2 2 (by decide) (by decide) (by decide) (by decide)⟩

/-- Claim C6: the list operation answers 404 exactly when the store is
empty or the requested page exceeds the ceiling-division page count; inside
the range over a non-empty store it succeeds. -/
theorem get_movies_notfound_rule (db : Database) (page per_page : Nat) :
    ((get_movies db page per_page = Except.error ApiError.notFound) ↔
      (db.movies.length = 0 ∨ ceilDiv db.movies.length per_page < page)) ∧
    (db.movies.length ≠ 0 → page ≤ ceilDiv db.movies.length per_page →
      ∃ resp, get_movies db page per_page = Except.ok resp) ∧
    statusCode ApiError.notFound = 404 := by
  by_cases h0 : db.movies.length = 0
  · have hc : get_movies db page per_page = Except.error ApiError.notFound := by
      simp only [get_movies]
      rw [if_pos h0]
    exact ⟨⟨fun _ => Or.inl h0, fun _ => hc⟩, fun hne => absurd h0 hne, rfl⟩
  · by_cases hpg : ceilDiv db.movies.length per_page < page
    · have hc : get_movies db page per_page = Except.error ApiError.notFound := by
        simp only [get_movies]
        rw [if_neg h0, if_pos hpg]
      refine ⟨⟨fun _ => Or.inr hpg, fun _ => hc⟩, ?_, rfl⟩
      intro _ hle
      exact absurd hpg (not_lt.mpr hle)
    · have hc : get_movies db page per_page = Except.ok
          { movies :=
              ((sortByIdDesc db.movies).drop ((page - 1) * per_page)).take per_page
            prev_page := if 1 < page then some (pageUrl (page - 1) per_page) else none
            next_page := if page < ceilDiv db.movies.length per_page then
              some (pageUrl (page + 1) per_page) else none
            total_pages := ceilDiv db.movies.length per_page
            total_items := db.movies.length } := by
        simp only [get_movies]
        rw [if_neg h0, if_neg hpg]
      refine ⟨⟨?_, ?_⟩, fun _ _ => ⟨_, hc⟩, rfl⟩
      · intro h
        rw [hc] at h
        cases h
      · intro hor
        rcases hor with h | h
        · exact absurd h h0
        · exact absurd h hpg

/-- Witness for claim C6: page 2 of size 10 over a one-movie store is past
the end and answers 404. -/
theorem get_movies_notfound_rule_witness :
    get_movies sampleDb2 2 10 = Except.error ApiError.notFound ∧
    ceilDiv sampleDb2.movies.length 10 < 2 :=
  ⟨(get_movies_notfound_rule sampleDb2 2 10).1.mpr (Or.inr (by decide)),
    by decide⟩

/-- A found update commits the mapped movie table and the updated row is
found again under the same id. -/
theorem update_movie_ok {db : Database} {mid : Nat} {u : MovieUpdateSchema}
    {m : Movie} (hm : db.movies.find? (fun x => x.id == mid) = some m) :
    update_movie db mid u =
      (Except.ok "Movie updated successfully.",
        { db with
            movies := db.movies.map
              (fun x => if x.id == mid then applyUpdate x u else x) }) ∧
    (db.movies.map (fun x => if x.id == mid then applyUpdate x u else x)).find?
        (fun x => x.id == mid) = some (applyUpdate m u) := by
  constructor
  · unfold update_movie
    rw [hm]
  · rw [List.find?_map]
    have hcomp : ((fun x : Movie => x.id == mid) ∘
        (fun x => if x.id == mid then applyUpdate x u else x)) =
        (fun x : Movie => x.id == mid) := by
      funext x
      simp only [Function.comp]
      by_cases hx : (x.id == mid) = true
      · rw [if_pos hx]
        rfl
      · rw [if_neg hx]
    rw [hcomp, hm]
    have hmid0 := List.find?_some hm
    have hmid : (m.id == mid) = true := hmid0
    simp only [Option.map_some']
    rw [if_pos hmid]

/-- Claim C7: a partial update of an existing movie changes exactly the
fields present in the sparse input — every omitted field keeps its prior
value, a present field takes the supplied value, and the nullable overview
may be explicitly cleared — while the id, the country link and the three
relation lists are never touched, every other movie row survives, the four
reference tables are untouched, and the operation answers with a success
marker only, not the entity. -/
theorem update_partial_frame (db : Database) (mid : Nat) (u : MovieUpdateSchema)
    (m : Movie) (hm : db.movies.find? (fun x => x.id == mid) = some m) :
    ∃ db₂, update_movie db mid u =
        (Except.ok "Movie updated successfully.", db₂) ∧
      db₂.movies.find? (fun x => x.id == mid) = some (applyUpdate m u) ∧
      (u.name = none → (applyUpdate m u).name = m.name) ∧
      (∀ v, u.name = some v → (applyUpdate m u).name = v) ∧
      (u.date = none → (applyUpdate m u).date = m.date) ∧
      (∀ v, u.date = some v → (applyUpdate m u).date = v) ∧
      (u.score = none → (applyUpdate m u).score = m.score) ∧
      (∀ v, u.score = some v → (applyUpdate m u).score = v) ∧
      (u.overview = none → (applyUpdate m u).overview = m.overview) ∧
      (∀ v, u.overview = some v → (applyUpdate m u).overview = v) ∧
      (u.status = none → (applyUpdate m u).status = m.status) ∧
      (∀ v, u.status = some v → (applyUpdate m u).status = v) ∧
      (u.budget = none → (applyUpdate m u).budget = m.budget) ∧
      (∀ v, u.budget = some v → (applyUpdate m u).budget = v) ∧
      (u.revenue = none → (applyUpdate m u).revenue = m.revenue) ∧
      (∀ v, u.revenue = some v → (applyUpdate m u).revenue = v) ∧
      (applyUpdate m u).id = m.id ∧
      (applyUpdate m u).countryId = m.countryId ∧
      (applyUpdate m u).genres = m.genres ∧
      (applyUpdate m u).actors = m.actors ∧
      (applyUpdate m u).languages = m.languages ∧
      (∀ x ∈ db.movies, x.id ≠ mid → x ∈ db₂.movies) ∧
      db₂.countries = db.countries ∧ db₂.genres = db.genres ∧
      db₂.actors = db.actors ∧ db₂.languages = db.languages := by
  obtain ⟨hc, hfind⟩ := update_movie_ok hm
  refine ⟨_, hc, hfind, ?_, ?_, ?_, ?_, ?_, ?_, ?_, ?_, ?_, ?_, ?_, ?_, ?_, ?_,
    rfl, rfl, rfl, rfl, rfl, ?_, rfl, rfl, rfl, rfl⟩
  · intro h
    simp [applyUpdate, h]
  · intro v h
    simp [applyUpdate, h]
  · intro h
    simp [applyUpdate, h]
  · intro v h
    simp [applyUpdate, h]
  · intro h
    simp [applyUpdate, h]
  · intro v h
    simp [applyUpdate, h]
  · intro h
    simp [applyUpdate, h]
  · intro v h
    simp [applyUpdate, h]
  · intro h
    simp [applyUpdate, h]
  · intro v h
    simp [applyUpdate, h]
  · intro h
    simp [applyUpdate, h]
  · intro v h
    simp [applyUpdate, h]
  · intro h
    simp [applyUpdate, h]
  · intro v h
    simp [applyUpdate, h]
  · intro x hx hne
    refine List.mem_map.mpr ⟨x, hx, ?_⟩
    have hb : (x.id == mid) = false := by simp [hne]
    rw [if_neg (by simp [hb])]

/-- Witness for claim C7: updating only the score of the sample movie. -/
theorem update_partial_frame_witness :
    sampleDb2.movies.find? (fun x => x.id == 1) = some sampleMovie ∧
    ∃ db₂, update_movie sampleDb2 1 ({ score := some 50 } : MovieUpdateSchema) =
        (Except.ok "Movie updated successfully.", db₂) ∧
      db₂.movies.find? (fun x => x.id == 1) =
        some (applyUpdate sampleMovie ({ score := some 50 } : MovieUpdateSchema)) := by
  have hm : sampleDb2.movies.find? (fun x => x.id == 1) = some sampleMovie := by rfl
  obtain ⟨db₂, h1, h2, _⟩ :=
    update_partial_frame sampleDb2 1 ({ score := some 50 } : MovieUpdateSchema)
      sampleMovie hm
  exact ⟨hm, db₂, h1, h2⟩

/-- Claim C10: the patch pipeline never enforces the 365-day future-date
rule: its schema validation ignores the date field entirely, and an update
whose present date lies more than 365 days past today (its other present
fields valid) succeeds and persists that date instead of failing. -/
theorem update_skips_future_date_rule (today : Int) (db : Database) (mid : Nat)
    (u : MovieUpdateSchema) (m : Movie) (dt : Int)
    (hm : db.movies.find? (fun x => x.id == mid) = some m)
    (hd : u.date = some dt) (hfar : today + 365 < dt)
    (hv : movieUpdateValid u = true) :
    (∀ dt₂, movieUpdateValid { u with date := dt₂ } = movieUpdateValid u) ∧
    ∃ db₂, update_movie db mid u =
        (Except.ok "Movie updated successfully.", db₂) ∧
      db₂.movies.find? (fun x => x.id == mid) = some (applyUpdate m u) ∧
      (applyUpdate m u).date = dt ∧
      today + 365 < (applyUpdate m u).date := by
  obtain ⟨hc, hfind⟩ := update_movie_ok hm
  have hdate : (applyUpdate m u).date = dt := by
    simp [applyUpdate, hd]
  exact ⟨fun _ => rfl, _, hc, hfind, hdate, hdate ▸ hfar⟩

/-- Witness for claim C10: pushing a date 1000 days in the future through
the patch route at day 0 succeeds. -/
theorem update_skips_future_date_rule_witness :
    dbThree.movies.find? (fun x => x.id == 1) = some (mkMovie 1) ∧
    (0 : Int) + 365 < 1000 ∧
    movieUpdateValid ({ date := some 1000 } : MovieUpdateSchema) = true ∧
    ∃ db₂, update_movie dbThree 1 ({ date := some 1000 } : MovieUpdateSchema) =
        (Except.ok "Movie updated successfully.", db₂) ∧
      (applyUpdate (mkMovie 1) ({ date := some 1000 } : MovieUpdateSchema)).date
        = 1000 := by
  have hm : dbThree.movies.find? (fun x => x.id == 1) = some (mkMovie 1) := by rfl
  obtain ⟨hign, db₂, h1, h2, h3, h4⟩ :=
    update_skips_future_date_rule 0 dbThree 1
      ({ date := some 1000 } : MovieUpdateSchema) (mkMovie 1) 1000 hm rfl
      (by decide) (by decide)
  exact ⟨hm, by decide, by decide, db₂, h1, h3⟩

/-- A 256-character name. -/
def longName : String := String.mk (List.replicate 256 'a')

/-- The sample create payload renamed to the 256-character name. -/
def longNameCreate : MovieCreateSchema := { sampleCreate with name := longName }

set_option maxRecDepth 8192 in
/-- Counterexample to claim C9 as stated: an input whose score, budget and
revenue are all within range is still rejected by the create schema at
input-acceptance time, because its name exceeds the 255-character bound of
`Field(max_length=255)` — so the rejection condition is not exactly "score
out of range or negative money". -/
theorem create_schema_validation_counterexample :
    movieCreateValid longNameCreate = false ∧
    0 ≤ longNameCreate.score ∧ longNameCreate.score ≤ 100 ∧
    0 ≤ longNameCreate.budget ∧ 0 ≤ longNameCreate.revenue := by
  refine ⟨?_, by decide, by decide, by decide, by decide⟩
  decide

/-- Claim C9 (amended): the create schema accepts an input — independently
of any store — exactly when the name is at most 255 characters, the score
lies in [0, 100], and budget and revenue are non-negative; in particular
the boundary scores 0 and 100 pass while -1 and 101 fail. -/
theorem create_schema_validation_rule (d : MovieCreateSchema) :
    (movieCreateValid d = true ↔
      (d.name.length ≤ 255 ∧ 0 ≤ d.score ∧ d.score ≤ 100 ∧
        0 ≤ d.budget ∧ 0 ≤ d.revenue)) ∧
    movieCreateValid { sampleCreate with score := 0 } = true ∧
    movieCreateValid { sampleCreate with score := 100 } = true ∧
    movieCreateValid { sampleCreate with score := 101 } = false ∧
    movieCreateValid { sampleCreate with score := -1 } = false := by
  refine ⟨?_, by decide, by decide, by decide, by decide⟩
  unfold movieCreateValid
  simp only [Bool.and_eq_true, decide_eq_true_eq, and_assoc]
